import Mathlib

/-
Shallow embedding of the workflow engine in src/app/engine.py
(classes NodeType, Node, WorkflowState, WorkflowEngine, Graph) and of the
tool registry in src/app/tools.py (class ToolRegistry).

Modelling conventions:
* Python dicts are insertion-ordered association lists with unique keys;
  dict assignment replaces the value in place (keeping the key's position)
  or appends a fresh key at the end.
* Python values flowing through the state are modelled by the inductive
  type Value with Python truthiness.
* A Python callable that may mutate the state in place, return a value and
  possibly raise is modelled as a function into PyResult, which carries the
  (possibly partially mutated) state in both the normal and the raising
  case.
* Timestamps (datetime.now) and uuid generation are outside the model: log
  entries omit the timestamp field and the fresh run id is a parameter of
  run_graph.
* In-place aliasing of the state object stored in the engine's run registry
  is modelled by re-storing the state at each point where the Python code
  returns control.
-/

inductive NodeType where
  | STANDARD
  | CONDITIONAL
  | LOOP
deriving DecidableEq

/-- A Python value as far as the engine observes it: the engine only ever
tests truthiness and dict membership of strings. -/
inductive Value where
  | vnone
  | vbool (b : Bool)
  | vint (n : Int)
  | vstr (s : String)
deriving DecidableEq

/-- Python truthiness of a Value. -/
def Value.truthy : Value → Bool
  | .vnone => false
  | .vbool b => b
  | .vint n => decide (n ≠ 0)
  | .vstr s => decide (s ≠ "")

/-- Truthiness of an Optional[str]: None and the empty string are falsy. -/
def strOptTruthy : Option String → Bool
  | none => false
  | some s => decide (s ≠ "")

/-- Python dict lookup: d.get(k) / d[k], first (unique) matching key. -/
def dictGet {α : Type} (d : List (String × α)) (k : String) : Option α :=
  (d.find? (fun p => p.1 = k)).map (fun p => p.2)

/-- Python dict assignment d[k] = v: replace in place keeping the key's
position, else append at the end. -/
def dictSet {α : Type} : List (String × α) → String → α → List (String × α)
  | [], k, v => [(k, v)]
  | (a, b) :: t, k, v => if a = k then (k, v) :: t else (a, b) :: dictSet t k v

/-- Python `k in d` for a dict. -/
def dictHas {α : Type} (d : List (String × α)) (k : String) : Bool :=
  d.any (fun p => p.1 = k)

/-- One entry of the execution log (engine.py, WorkflowState.log); the
timestamp field is outside the model. -/
structure LogEntry where
  node_id : String
  message : String
  result : Value
deriving DecidableEq

/-- engine.py, class WorkflowState (created_at dropped: real time). -/
structure WorkflowState where
  data : List (String × Value)
  current_node : Option String
  execution_log : List LogEntry
  run_id : String
  completed : Bool
  error : Option String
deriving DecidableEq

/-- WorkflowState.update: state.data.update(kwargs). -/
def WorkflowState.update (st : WorkflowState) (kvs : List (String × Value)) :
    WorkflowState :=
  {st with data := kvs.foldl (fun d kv => dictSet d kv.1 kv.2) st.data}

/-- WorkflowState.get. -/
def WorkflowState.get (st : WorkflowState) (key : String) (default : Value) :
    Value :=
  (dictGet st.data key).getD default

/-- WorkflowState.log: append an entry to the execution log. -/
def WorkflowState.log (st : WorkflowState) (node_id message : String)
    (result : Value) : WorkflowState :=
  {st with execution_log := st.execution_log ++ [⟨node_id, message, result⟩]}

/-- Outcome of calling a Python callable on the state: it may mutate the
state and return a value, or raise carrying the mutations made so far. -/
inductive PyResult where
  | ok (st : WorkflowState) (v : Value)
  | exn (st : WorkflowState) (msg : String)

/-- The func field of a Node: an unresolved tool name, a resolved callable,
or a value that is neither (rejected by resolve_functions). -/
inductive FuncRef where
  | name (s : String)
  | fn (f : WorkflowState → PyResult)
  | invalid

/-- engine.py, class Node. -/
structure Node where
  id : String
  name : String
  func : FuncRef
  node_type : NodeType
  condition_func : Option (WorkflowState → PyResult)
  loop_condition_func : Option (WorkflowState → PyResult)

/-- tools.py, class ToolRegistry. -/
structure ToolRegistry where
  tools : List (String × (WorkflowState → PyResult))

/-- ToolRegistry.has_tool. -/
def ToolRegistry.has_tool (r : ToolRegistry) (name : String) : Bool :=
  dictHas r.tools name

/-- engine.py, class Graph. resolve_functions stores the registry in the
tool_registry field. -/
structure Graph where
  graph_id : String
  nodes : List (String × Node)
  edges : List (String × String)
  tool_registry : Option ToolRegistry

/-- Graph.add_node: unconditional dict assignment (overwrites on duplicate
id, never fails). -/
def Graph.add_node (g : Graph) (node_id name : String) (func : FuncRef)
    (node_type : NodeType)
    (condition_func loop_condition_func : Option (WorkflowState → PyResult)) :
    Graph :=
  let n : Node :=
    ⟨node_id, name, func, node_type, condition_func, loop_condition_func⟩
  {g with nodes := dictSet g.nodes node_id n}

/-- Graph.add_edge: validates both endpoints, then records/replaces the
default successor. -/
def Graph.add_edge (g : Graph) (from_node to_node : String) :
    Except String Graph :=
  if ¬ dictHas g.nodes from_node then
    Except.error ("Source node " ++ from_node ++ " not found")
  else if ¬ dictHas g.nodes to_node then
    Except.error ("Target node " ++ to_node ++ " not found")
  else
    Except.ok {g with edges := dictSet g.edges from_node to_node}

/-- Resolution of a single node's func field (the body of the for-loop of
Graph.resolve_functions): a string name is looked up in the registry
(has_tool then get_tool, merged here into one dict lookup), an already
resolved callable is left alone, anything else raises. -/
def resolveFuncRef (reg : Option ToolRegistry) (node : Node) :
    Except String Node :=
  match node.func with
  | FuncRef.name s =>
      match reg with
      | some r =>
          match dictGet r.tools s with
          | some f => Except.ok {node with func := FuncRef.fn f}
          | none => Except.error ("Tool '" ++ s ++ "' not found in registry")
      | none => Except.error ("Tool '" ++ s ++ "' not found in registry")
  | FuncRef.fn _ => Except.ok node
  | FuncRef.invalid => Except.error ("Node " ++ node.id ++ " has invalid function")

/-- The for-loop of Graph.resolve_functions over the node dict: nodes are
mutated in place one by one; the first failure stops the loop, leaving the
earlier nodes resolved and the rest untouched. Returns the node list as it
stands and the raised message, if any. -/
def resolveList (reg : Option ToolRegistry) :
    List (String × Node) → List (String × Node) × Option String
  | [] => ([], none)
  | (k, n) :: rest =>
      match resolveFuncRef reg n with
      | Except.ok n' =>
          match resolveList reg rest with
          | (rest', e) => ((k, n') :: rest', e)
      | Except.error msg => ((k, n) :: rest, some msg)

/-- Graph.resolve_functions: stores the registry, then resolves every
node's func in place; a lookup failure raises (second component) with the
partially mutated graph (first component) left behind. -/
def Graph.resolve_functions (g : Graph) (reg : Option ToolRegistry) :
    Graph × Option String :=
  match resolveList reg g.nodes with
  | (nodes', e) => ({g with tool_registry := reg, nodes := nodes'}, e)

/-- Graph.get_start_node: first declared node that is not the target of any
edge; if all nodes are targets, the first declared node; None on the empty
graph. -/
def Graph.get_start_node (g : Graph) : Option String :=
  if g.nodes.isEmpty then none
  else
    let target_nodes := g.edges.map (fun e => e.2)
    let start_nodes :=
      (g.nodes.map (fun p => p.1)).filter (fun nid => ¬ target_nodes.contains nid)
    match start_nodes with
    | nid :: _ => some nid
    | [] => (g.nodes.map (fun p => p.1)).head?

/-- Graph.get_next_node: the default successor mapping (the state argument
is ignored by the source as well). -/
def Graph.get_next_node (g : Graph) (current_node : String)
    (st : WorkflowState) : Option String :=
  dictGet g.edges current_node

/-- Calling node.func(state): a resolved callable runs; calling a string or
another non-callable raises a TypeError (unreachable in run_graph after a
successful resolve_functions). -/
def callFunc : FuncRef → WorkflowState → PyResult
  | FuncRef.fn f, st => f st
  | FuncRef.name _, st => PyResult.exn st "'str' object is not callable"
  | FuncRef.invalid, st => PyResult.exn st "object is not callable"

/-- WorkflowEngine.run_graph: the target of the conditional jump check
`if next_node and next_node in graph.nodes` — only a truthy (non-empty)
string that is a key of the node dict passes. -/
def condJump (g : Graph) : Value → Option String
  | Value.vstr s => if s ≠ "" ∧ dictHas g.nodes s then some s else none
  | _ => none

/-- Outcome of the routing step of one loop iteration: the next node id
(None ends the run) or a raised error, with the state as mutated so far. -/
inductive RouteResult where
  | rok (st : WorkflowState) (next : Option String)
  | exc (st : WorkflowState) (msg : String)
deriving DecidableEq

/-- engine.py lines 157-165: routing after executing a non-(loop-with-
condition) node. A conditional node with a routing callable invokes it and
jumps to a returned valid node id, else falls back to the default
successor; every other node follows the default successor. -/
def routeAfter (g : Graph) (node : Node) (current_node_id : String)
    (st : WorkflowState) : RouteResult :=
  match node.node_type, node.condition_func with
  | NodeType.CONDITIONAL, some cf =>
      match cf st with
      | PyResult.exn st' msg => RouteResult.exc st' msg
      | PyResult.ok st' v =>
          match condJump g v with
          | some s => RouteResult.rok st' (some s)
          | none => RouteResult.rok st' (g.get_next_node current_node_id st')
  | _, _ => RouteResult.rok st (g.get_next_node current_node_id st)

/-- How the engine's while loop ended: leaving the loop normally (by the
loop condition or a break) with the final value of the iteration counter,
or by an exception raised out of a callable. -/
inductive LoopExit where
  | normal (st : WorkflowState) (iteration : Nat)
  | exc (st : WorkflowState) (msg : String)
deriving DecidableEq

def LoopExit.exitState : LoopExit → WorkflowState
  | LoopExit.normal st _ => st
  | LoopExit.exc st _ => st

def LoopExit.exitIter : LoopExit → Nat
  | LoopExit.normal _ it => it
  | LoopExit.exc _ _ => 0

def LoopExit.isNormal : LoopExit → Bool
  | LoopExit.normal _ _ => true
  | LoopExit.exc _ _ => false

/-- engine.py line 123: max_iterations = 1000. -/
def max_iterations : Nat := 1000

/-- engine.py lines 135-138: set the current-node pointer and append the
"Executing node" log entry, before invoking the step callable. -/
def enterNode (node : Node) (cid : String) (st : WorkflowState) :
    WorkflowState :=
  ({st with current_node := some cid}).log node.id
    ("Executing node: " ++ node.name) Value.vnone

/-- engine.py lines 141-142: a truthy step result gets a "Node completed"
log entry. -/
def afterResult (node : Node) (st : WorkflowState) (result : Value) :
    WorkflowState :=
  if result.truthy then st.log node.id "Node completed" result else st

/-- engine.py lines 127-176, the while loop of WorkflowEngine.run_graph.
The fuel argument stands for max_iterations - iteration, so the while
condition `current_node_id and iteration < max_iterations` is: stop when
fuel is exhausted or the current node id is falsy (None or empty).
One recursive call is one loop iteration; the `continue` after the loop-
node branch skips the completion check and the visited-set bookkeeping. -/
def loopGo (g : Graph) :
    Nat → Nat → Option String → List String → WorkflowState → LoopExit
  | 0, iteration, _, _, st => LoopExit.normal st iteration
  | _ + 1, iteration, none, _, st => LoopExit.normal st iteration
  | fuel + 1, iteration, some cid, visited, st =>
    if cid = "" then LoopExit.normal st iteration
    else
      let iteration := iteration + 1
      match dictGet g.nodes cid with
      | none =>
          LoopExit.normal
            {st with error := some ("Node " ++ cid ++ " not found in graph")}
            iteration
      | some node =>
        match callFunc node.func (enterNode node cid st) with
        | PyResult.exn st msg => LoopExit.exc st msg
        | PyResult.ok st result =>
          let st := afterResult node st result
          match node.node_type, node.loop_condition_func with
          | NodeType.LOOP, some lcf =>
              match lcf st with
              | PyResult.exn st msg => LoopExit.exc st msg
              | PyResult.ok st should_continue =>
                  if should_continue.truthy then
                    let st :=
                      st.log node.id "Loop condition met, continuing loop"
                        Value.vnone
                    loopGo g fuel iteration (g.get_next_node cid st) visited st
                  else
                    let st :=
                      st.log node.id "Loop condition not met, exiting loop"
                        Value.vnone
                    loopGo g fuel iteration none visited st
          | _, _ =>
            match routeAfter g node cid st with
            | RouteResult.exc st msg => LoopExit.exc st msg
            | RouteResult.rok st next =>
                match next with
                | none =>
                    let st := st.log "engine" "Workflow completed" Value.vnone
                    LoopExit.normal {st with completed := true} iteration
                | some nid =>
                    let visited :=
                      if visited.contains nid ∧ node.node_type ≠ NodeType.LOOP
                      then [] else visited
                    let visited :=
                      if visited.contains nid then visited else visited ++ [nid]
                    loopGo g fuel iteration (some nid) visited st

/-- engine.py lines 122-186: the try block around the while loop. A normal
loop exit is followed by the iteration-cap check (which overwrites the
error field and sets the completion flag when the counter reached the cap);
an exception is caught, recorded in the error field, the completion flag is
set and a final error log entry is appended. -/
def run_loop_phase (g : Graph) (cur : Option String) (st : WorkflowState) :
    WorkflowState :=
  match loopGo g max_iterations 0 cur [] st with
  | LoopExit.normal st iteration =>
      if iteration ≥ max_iterations then
        {st with error := some "Maximum iterations reached", completed := true}
      else st
  | LoopExit.exc st msg =>
      let st := {st with error := some msg, completed := true}
      st.log "engine" ("Error: " ++ msg) Value.vnone

/-- engine.py, class WorkflowEngine: the graph registry and the run
registry. -/
structure WorkflowEngine where
  graphs : List (String × Graph)
  runs : List (String × WorkflowState)

/-- Fresh state created at the top of run_graph, seeded with a copy of the
initial data (the fresh uuid run id is a parameter of the model). -/
def initState (initial_state : List (String × Value)) (run_id : String) :
    WorkflowState :=
  { data := initial_state, current_node := none, execution_log := [],
    run_id := run_id, completed := false, error := none }

/-- The fresh state right after the start log entry (engine.py line 120),
as the step loop first sees it. -/
def startLogged (initial_state : List (String × Value)) (run_id s : String) :
    WorkflowState :=
  (initState initial_state run_id).log "engine"
    ("Starting workflow from node: " ++ s) Value.vnone

/-- Result of a call to WorkflowEngine.run_graph: the returned state, or an
exception raised past the engine boundary (graph not found, or a
resolution failure raised by resolve_functions outside the try block). In
both cases the engine's registries carry the side effects made so far. -/
inductive RunOutcome where
  | ok (eng : WorkflowEngine) (st : WorkflowState)
  | raised (eng : WorkflowEngine) (msg : String)

def RunOutcome.stateOf : RunOutcome → Option WorkflowState
  | RunOutcome.ok _ st => some st
  | RunOutcome.raised _ _ => none

def RunOutcome.raisedMsg : RunOutcome → Option String
  | RunOutcome.ok _ _ => none
  | RunOutcome.raised _ msg => some msg

def RunOutcome.engineOf : RunOutcome → WorkflowEngine
  | RunOutcome.ok eng _ => eng
  | RunOutcome.raised eng _ => eng

/-- WorkflowEngine.run_graph (engine.py lines 95-187). The in-place
aliasing of the registered state object is modelled by re-storing the
state into the run registry at each return point; resolve_functions
mutates the stored graph, modelled by re-storing the graph. -/
def WorkflowEngine.run_graph (eng : WorkflowEngine) (graph_id : String)
    (initial_state : List (String × Value)) (start_node : Option String)
    (tool_registry : Option ToolRegistry) (run_id : String) : RunOutcome :=
  match dictGet eng.graphs graph_id with
  | none => RunOutcome.raised eng ("Graph " ++ graph_id ++ " not found")
  | some graph =>
    let st := initState initial_state run_id
    let eng := {eng with runs := dictSet eng.runs st.run_id st}
    match graph.resolve_functions tool_registry with
    | (graph, resolveErr) =>
      let eng := {eng with graphs := dictSet eng.graphs graph_id graph}
      match resolveErr with
      | some msg => RunOutcome.raised eng msg
      | none =>
        let current_node_id :=
          if strOptTruthy start_node then start_node else graph.get_start_node
        if strOptTruthy current_node_id then
          let st :=
            st.log "engine"
              ("Starting workflow from node: " ++ current_node_id.getD "")
              Value.vnone
          let final := run_loop_phase graph current_node_id st
          let eng := {eng with runs := dictSet eng.runs st.run_id final}
          RunOutcome.ok eng final
        else
          let st := {st with error := some "No start node found", completed := true}
          let eng := {eng with runs := dictSet eng.runs st.run_id st}
          RunOutcome.ok eng st

/-- WorkflowEngine.get_run_state. -/
def WorkflowEngine.get_run_state (eng : WorkflowEngine) (run_id : String) :
    Option WorkflowState :=
  dictGet eng.runs run_id

/-- Spec-side reformulation of inferStartNode (spec section 4.1): the first
node in declaration order with no incoming default edge; if none exists the
first declared node; nothing for the empty graph. Used only to compare with
Graph.get_start_node. -/
def inferStartNodeSpec (g : Graph) : Option String :=
  let declared := g.nodes.map (fun p => p.1)
  let candidates :=
    declared.filter (fun nid => ¬ g.edges.any (fun e => e.2 = nid))
  match candidates.head? with
  | some c => some c
  | none => declared.head?

/- Concrete fixtures (test inputs for witnesses, counterexamples and
failing-input evaluations). -/

/-- A step callable that mutates nothing and returns None. -/
def trivStep : WorkflowState → PyResult := fun st => PyResult.ok st Value.vnone

/-- A loop-continuation callable that always answers False. -/
def falseLoop : WorkflowState → PyResult :=
  fun st => PyResult.ok st (Value.vbool false)

/-- A step callable that raises. -/
def boomStep : WorkflowState → PyResult := fun st => PyResult.exn st "boom"

/-- C1 failing input: one loop node whose default edge loops back to itself
and whose continuation callable answers False. -/
def nodeL : Node :=
  ⟨"l", "Loop Check", FuncRef.fn trivStep, NodeType.LOOP, none, some falseLoop⟩

def gC1 : Graph := ⟨"g", [("l", nodeL)], [("l", "l")], none⟩

def engC1 : WorkflowEngine := ⟨[("g", gC1)], []⟩

def runC1 : RunOutcome := engC1.run_graph "g" [] none none "r1"

/-- C2 counterexample input: a node whose step reference names a tool that
the registry does not hold. -/
def nodeM : Node :=
  ⟨"a", "a", FuncRef.name "missing", NodeType.STANDARD, none, none⟩

def gC2 : Graph := ⟨"g2", [("a", nodeM)], [], none⟩

def engC2 : WorkflowEngine := ⟨[("g2", gC2)], []⟩

def regC2 : Option ToolRegistry := some ⟨[]⟩

def runC2 : RunOutcome := engC2.run_graph "g2" [] none regC2 "r2"

/-- Integer read from the data key "x" (0 when absent), used by the C3
counterexample callables. -/
def getX (st : WorkflowState) : Int :=
  match dictGet st.data "x" with
  | some (Value.vint n) => n
  | _ => 0

/-- Step callable incrementing the data key "x". -/
def incStep : WorkflowState → PyResult :=
  fun st =>
    PyResult.ok
      {st with data := dictSet st.data "x" (Value.vint (getX st + 1))}
      Value.vnone

/-- Routing callable jumping back to node "a" until "x" reaches 1000. -/
def condTo1000 : WorkflowState → PyResult :=
  fun st =>
    PyResult.ok st (if getX st < 1000 then Value.vstr "a" else Value.vnone)

/-- C3 counterexample input: a single conditional node that re-enters
itself 999 times and then completes naturally on exactly the 1000th
iteration. -/
def nodeA : Node :=
  ⟨"a", "a", FuncRef.fn incStep, NodeType.CONDITIONAL, some condTo1000, none⟩

def gC3 : Graph := ⟨"g3", [("a", nodeA)], [], none⟩

def stC3 : WorkflowState := initState [("x", Value.vint 0)] "r3"

/-- C4 counterexample input: the same node id registered twice with
different display names. -/
def gC4 : Graph :=
  (Graph.mk "g4" [] [] none).add_node "a" "first" FuncRef.invalid
    NodeType.STANDARD none none

def gC4b : Graph :=
  gC4.add_node "a" "second" FuncRef.invalid NodeType.STANDARD none none

/-- C5 witness input: two standard nodes whose default edges form a
two-cycle. -/
def nodeP : Node :=
  ⟨"p", "p", FuncRef.fn trivStep, NodeType.STANDARD, none, none⟩

def nodeQ : Node :=
  ⟨"q", "q", FuncRef.fn trivStep, NodeType.STANDARD, none, none⟩

def gC5 : Graph :=
  ⟨"g5", [("p", nodeP), ("q", nodeQ)], [("p", "q"), ("q", "p")], none⟩

def engC5 : WorkflowEngine := ⟨[("g5", gC5)], []⟩

/-- C6 witness input: a single standard node whose step callable raises. -/
def nodeE : Node :=
  ⟨"e", "e", FuncRef.fn boomStep, NodeType.STANDARD, none, none⟩

def gC6 : Graph := ⟨"g6", [("e", nodeE)], [], none⟩

def engC6 : WorkflowEngine := ⟨[("g6", gC6)], []⟩

/-- Routing callable returning the empty string. -/
def cfEmpty : WorkflowState → PyResult :=
  fun st => PyResult.ok st (Value.vstr "")

/-- Routing callable returning "b". -/
def cfB : WorkflowState → PyResult :=
  fun st => PyResult.ok st (Value.vstr "b")

/-- C7 counterexample input: a graph that contains a node whose identity is
the empty string, and a conditional node whose routing callable returns
that identity; the default edge of the conditional node goes to "b". -/
def nodeEmptyId : Node :=
  ⟨"", "empty", FuncRef.fn trivStep, NodeType.STANDARD, none, none⟩

def nodeB7 : Node :=
  ⟨"b", "b", FuncRef.fn trivStep, NodeType.STANDARD, none, none⟩

def nodeC7 : Node :=
  ⟨"c", "c", FuncRef.fn trivStep, NodeType.CONDITIONAL, some cfEmpty, none⟩

def gC7 : Graph :=
  ⟨"g7", [("", nodeEmptyId), ("b", nodeB7), ("c", nodeC7)], [("c", "b")], none⟩

/-- C7 witness input: like nodeC7 but the routing callable returns "b". -/
def nodeC7W : Node :=
  ⟨"c", "c", FuncRef.fn trivStep, NodeType.CONDITIONAL, some cfB, none⟩

def stW : WorkflowState := initState [] "w"

/-- C9 witness input: one node with an unresolved step reference "t" and a
registry holding "t". -/
def nodeT : Node :=
  ⟨"a", "a", FuncRef.name "t", NodeType.STANDARD, none, none⟩

def gC9 : Graph := ⟨"g9", [("a", nodeT)], [], none⟩

def regW : Option ToolRegistry := some ⟨[("t", trivStep)]⟩

/-- gC9 after a successful resolution against regW. -/
def gC9r : Graph :=
  ⟨"g9", [("a", ⟨"a", "a", FuncRef.fn trivStep, NodeType.STANDARD, none, none⟩)],
   [], regW⟩

/- Helper lemmas about the dict model. -/

theorem dictGet_cons {α : Type} (a : String) (b : α) (t : List (String × α))
    (k : String) :
    dictGet ((a, b) :: t) k = if a = k then some b else dictGet t k := by
  by_cases h : a = k <;> simp [dictGet, List.find?_cons, h]

theorem dictGet_dictSet_self {α : Type} (d : List (String × α)) (k : String)
    (v : α) : dictGet (dictSet d k v) k = some v := by
  induction d with
  | nil => simp [dictSet, dictGet, List.find?]
  | cons p t ih =>
      obtain ⟨a, b⟩ := p
      by_cases h : a = k
      · subst h; simp [dictSet, dictGet_cons]
      · simp [dictSet, h, dictGet_cons, ih]

theorem dictHas_get {α : Type} (d : List (String × α)) (k : String)
    (h : dictHas d k = true) : ∃ v, dictGet d k = some v := by
  induction d with
  | nil => simp [dictHas] at h
  | cons p t ih =>
      obtain ⟨a, b⟩ := p
      by_cases hk : a = k
      · subst hk; exact ⟨b, by simp [dictGet_cons]⟩
      · have h' : dictHas t k = true := by
          simpa [dictHas, hk] using h
        obtain ⟨v, hv⟩ := ih h'
        exact ⟨v, by simp [dictGet_cons, hk, hv]⟩

theorem dictGet_mem {α : Type} (d : List (String × α)) (k : String) (v : α)
    (h : dictGet d k = some v) : (k, v) ∈ d := by
  induction d with
  | nil => simp [dictGet, List.find?] at h
  | cons p t ih =>
      obtain ⟨a, b⟩ := p
      rw [dictGet_cons] at h
      by_cases hk : a = k
      · subst hk
        rw [if_pos rfl] at h
        obtain rfl := Option.some.injEq .. ▸ h
        simp_all
      · rw [if_neg hk] at h
        exact List.mem_cons_of_mem _ (ih h)

theorem dictSet_keys_of_has {α : Type} (d : List (String × α)) (k : String)
    (v : α) (h : dictHas d k = true) :
    (dictSet d k v).map (fun p => p.1) = d.map (fun p => p.1) := by
  induction d with
  | nil => simp [dictHas] at h
  | cons p t ih =>
      obtain ⟨a, b⟩ := p
      by_cases hk : a = k
      · subst hk; simp [dictSet]
      · have h' : dictHas t k = true := by
          simpa [dictHas, hk] using h
        simp [dictSet, hk, ih h']

/-- C10: run with an explicit start node equal to the empty string behaves
exactly like run with no start node: the empty string is falsy, so the
start node is inferred from the graph. -/
theorem run_graph_empty_start_like_none (eng : WorkflowEngine) (gid : String)
    (init : List (String × Value)) (reg : Option ToolRegistry) (rid : String) :
    eng.run_graph gid init (some "") reg rid =
      eng.run_graph gid init none reg rid := rfl

/-- C8: Graph.get_start_node implements the spec's inferStartNode contract:
the first node in declaration order without an incoming default edge, else
the first declared node, and nothing on the empty graph. -/
theorem get_start_node_matches_spec (g : Graph) :
    g.get_start_node = inferStartNodeSpec g := by
  have hf :
      (g.nodes.map (fun p => p.1)).filter
          (fun nid => ¬ (g.edges.map (fun e => e.2)).contains nid)
        = (g.nodes.map (fun p => p.1)).filter
          (fun nid => ¬ g.edges.any (fun e => e.2 = nid)) := by
    apply List.filter_congr
    intro x _
    have hcont : (List.map (fun e => e.2) g.edges).contains x
        = g.edges.any (fun e => e.2 = x) := by
      rw [Bool.eq_iff_iff]
      constructor
      · intro h
        have hx : x ∈ List.map (fun e => e.2) g.edges := by
          simpa using List.elem_iff.mp h
        obtain ⟨e, he, hex⟩ := List.mem_map.mp hx
        exact List.any_eq_true.mpr ⟨e, he, by simp [hex]⟩
      · intro h
        obtain ⟨e, he, hex⟩ := List.any_eq_true.mp h
        have hx : x ∈ List.map (fun e => e.2) g.edges :=
          List.mem_map.mpr ⟨e, he, by simpa using hex⟩
        exact List.elem_iff.mpr hx
    simp only [hcont]
  unfold Graph.get_start_node inferStartNodeSpec
  simp only [hf]
  cases hn : g.nodes with
  | nil => simp
  | cons p t =>
      simp only [List.isEmpty_cons, Bool.false_eq_true, if_false]
      cases hc : ((p :: t).map (fun p => p.1)).filter
          (fun nid => ¬ g.edges.any (fun e => e.2 = nid)) with
      | nil => simp
      | cons c cs => simp

/-- C4 counterexample: adding a node under an identity already present does
not fail and does not leave the existing node unchanged — the second call
replaces the stored node (its display name changes from "first" to
"second"), refuting rejection. -/
theorem add_node_duplicate_cex :
    (dictGet gC4.nodes "a").map (fun n => n.name) = some "first"
    ∧ (dictGet gC4b.nodes "a").map (fun n => n.name) = some "second"
    ∧ gC4b.nodes.length = 1 :=
  ⟨rfl, rfl, rfl⟩

/-- C4 amended: for every graph and node identity already present, addNode
overwrites the stored node in place — the new node is stored under the
identity, the set and order of declared identities is unchanged, and no
error is possible (add_node is total). -/
theorem add_node_duplicate_overwrites (g : Graph) (node_id nm : String)
    (func : FuncRef) (nt : NodeType)
    (cf lcf : Option (WorkflowState → PyResult))
    (h : dictHas g.nodes node_id = true) :
    dictGet (g.add_node node_id nm func nt cf lcf).nodes node_id =
      some ⟨node_id, nm, func, nt, cf, lcf⟩
    ∧ (g.add_node node_id nm func nt cf lcf).nodes.map (fun p => p.1) =
      g.nodes.map (fun p => p.1) :=
  ⟨dictGet_dictSet_self g.nodes node_id _,
   dictSet_keys_of_has g.nodes node_id _ h⟩

/-- C4 witness: the amended statement at a concrete duplicate insertion. -/
theorem add_node_duplicate_overwrites_witness :
    dictHas gC4.nodes "a" = true
    ∧ dictGet gC4b.nodes "a" =
        some ⟨"a", "second", FuncRef.invalid, NodeType.STANDARD, none, none⟩
    ∧ gC4b.nodes.map (fun p => p.1) = gC4.nodes.map (fun p => p.1) :=
  ⟨rfl,
   (add_node_duplicate_overwrites gC4 "a" "second" FuncRef.invalid
      NodeType.STANDARD none none rfl).1,
   (add_node_duplicate_overwrites gC4 "a" "second" FuncRef.invalid
      NodeType.STANDARD none none rfl).2⟩

/-- A node that came out of a successful resolveFuncRef resolves to itself
on a second pass (its func is already a callable). -/
theorem resolveFuncRef_idem (reg : Option ToolRegistry) (n n' : Node)
    (h : resolveFuncRef reg n = Except.ok n') :
    resolveFuncRef reg n' = Except.ok n' := by
  unfold resolveFuncRef at h ⊢
  split at h
  · split at h
    · split at h
      · injection h with h
        subst h
        rfl
      · exact Except.noConfusion h
    · exact Except.noConfusion h
  · next f heq =>
      injection h with h
      subst h
      rw [heq]
  · exact Except.noConfusion h

/-- A node list that resolved without failure resolves to itself again. -/
theorem resolveList_idem (reg : Option ToolRegistry) :
    ∀ (nodes nodes' : List (String × Node)),
      resolveList reg nodes = (nodes', none) →
      resolveList reg nodes' = (nodes', none) := by
  intro nodes
  induction nodes with
  | nil =>
      intro nodes' h
      simp only [resolveList] at h
      obtain ⟨rfl, -⟩ := Prod.mk.injEq .. ▸ h
      rfl
  | cons p t ih =>
      obtain ⟨k, n⟩ := p
      intro nodes' h
      simp only [resolveList] at h
      cases hr : resolveFuncRef reg n with
      | error msg => rw [hr] at h; simp at h
      | ok n' =>
          rw [hr] at h
          cases hrest : resolveList reg t with
          | mk rest' e =>
              rw [hrest] at h
              obtain ⟨h1, h2⟩ := Prod.mk.injEq .. ▸ h
              subst h2
              subst h1
              have hn' := resolveFuncRef_idem reg n n' hr
              have ht := ih rest' hrest
              simp only [resolveList, hn', ht]

/-- C9: step-reference resolution is idempotent — after a successful
resolve_functions, resolving the resulting graph again with the same
registry succeeds and returns the graph unchanged (so subsequent execution
behavior is identical). -/
theorem resolve_functions_idempotent (g : Graph) (reg : Option ToolRegistry)
    (g' : Graph) (h : g.resolve_functions reg = (g', none)) :
    g'.resolve_functions reg = (g', none) := by
  unfold Graph.resolve_functions at h ⊢
  cases hl : resolveList reg g.nodes with
  | mk nodes' e =>
      rw [hl] at h
      obtain ⟨h1, h2⟩ := Prod.mk.injEq .. ▸ h
      subst h2
      subst h1
      have ht := resolveList_idem reg g.nodes nodes' hl
      have hp : ({g with tool_registry := reg, nodes := nodes'} : Graph).nodes
          = nodes' := rfl
      rw [hp, ht]

/-- C9 witness: a concrete graph with one unresolved step reference,
resolved twice against the same registry. -/
theorem resolve_functions_idempotent_witness :
    gC9.resolve_functions regW = (gC9r, none)
    ∧ gC9r.resolve_functions regW = (gC9r, none) :=
  ⟨rfl, resolve_functions_idempotent gC9 regW gC9r rfl⟩

/-- C2 counterexample: running a graph whose node references a missing
capability raises the resolution error past the engine boundary (run_graph
does not return a state), while the freshly created state stays registered
in the run registry, not completed and with no error recorded. -/
theorem run_resolution_failure_cex :
    runC2.raisedMsg = some "Tool 'missing' not found in registry"
    ∧ runC2.stateOf = none
    ∧ runC2.engineOf.get_run_state "r2" = some (initState [] "r2")
    ∧ (initState [] "r2").completed = false
    ∧ (initState [] "r2").error = none :=
  ⟨rfl, rfl, rfl, rfl, rfl⟩

/-- C2 amended: for every run whose graph fails step-reference resolution,
run_graph raises that failure past the engine boundary (it does not return
a completed state); the state created for the run is registered in the run
registry but left half-created: not completed, with no error field set. -/
theorem run_resolution_failure_raises (eng : WorkflowEngine) (gid : String)
    (init : List (String × Value)) (sn : Option String)
    (reg : Option ToolRegistry) (rid : String) (g : Graph) (msg : String)
    (hg : dictGet eng.graphs gid = some g)
    (hres : (g.resolve_functions reg).2 = some msg) :
    (eng.run_graph gid init sn reg rid).raisedMsg = some msg
    ∧ (eng.run_graph gid init sn reg rid).stateOf = none
    ∧ (eng.run_graph gid init sn reg rid).engineOf.get_run_state rid =
        some (initState init rid)
    ∧ (initState init rid).completed = false
    ∧ (initState init rid).error = none := by
  have hrun : eng.run_graph gid init sn reg rid =
      RunOutcome.raised
        {eng with
          runs := dictSet eng.runs rid (initState init rid),
          graphs := dictSet eng.graphs gid (g.resolve_functions reg).1} msg := by
    cases hp : g.resolve_functions reg with
    | mk g2 e =>
        rw [hp] at hres
        simp only at hres
        subst hres
        simp only [WorkflowEngine.run_graph, hg, hp]
        rfl
  refine ⟨?_, ?_, ?_, rfl, rfl⟩
  · rw [hrun]; rfl
  · rw [hrun]; rfl
  · rw [hrun]
    show dictGet (dictSet eng.runs rid (initState init rid)) rid =
      some (initState init rid)
    exact dictGet_dictSet_self eng.runs rid (initState init rid)

/-- C2 witness: the amended statement at the concrete missing-capability
input. -/
theorem run_resolution_failure_raises_witness :
    (engC2.run_graph "g2" [] none regC2 "rw2").raisedMsg =
        some "Tool 'missing' not found in registry"
    ∧ (engC2.run_graph "g2" [] none regC2 "rw2").stateOf = none
    ∧ (engC2.run_graph "g2" [] none regC2 "rw2").engineOf.get_run_state "rw2" =
        some (initState [] "rw2")
    ∧ (initState [] "rw2").completed = false
    ∧ (initState [] "rw2").error = none :=
  run_resolution_failure_raises engC2 "g2" [] none regC2 "rw2" gC2
    "Tool 'missing' not found in registry" rfl rfl

/-- C1: evaluation at the failing input. A run over a single loop node
whose continuation callable answers False: the loop node's default edge
("l" -> "l") is not followed on exit (only one "Executing node" entry
appears), as claimed — but the run ends with the completion flag still
false, no error, and no "Workflow completed" log entry, because the
engine's continue-statement skips the completion block on loop exit. -/
theorem loop_exit_skips_completion :
    dictGet gC1.edges "l" = some "l"
    ∧ runC1.raisedMsg = none
    ∧ runC1.stateOf.map (fun st => st.completed) = some false
    ∧ runC1.stateOf.map (fun st => st.error) = some none
    ∧ runC1.stateOf.map (fun st => st.execution_log.map (fun e => e.message)) =
        some ["Starting workflow from node: l",
              "Executing node: Loop Check",
              "Loop condition not met, exiting loop"] :=
  ⟨rfl, rfl, rfl, rfl, rfl⟩

/-- C6: an error raised from within a step, routing, or loop-continuation
callable during the step loop is caught by the engine and not propagated:
run_graph returns normally, the run's error field carries the failure
message, the completion flag is set, and a final "error" log entry is
appended after the log as it stood at the failure. -/
theorem run_catches_callable_errors
    (eng : WorkflowEngine) (gid : String) (init : List (String × Value))
    (sn : Option String) (reg : Option ToolRegistry) (rid : String)
    (g g' : Graph) (s : String) (st0 : WorkflowState) (msg : String)
    (hg : dictGet eng.graphs gid = some g)
    (hres : g.resolve_functions reg = (g', none))
    (hstart : (if strOptTruthy sn then sn else g'.get_start_node) = some s)
    (hs : s ≠ "")
    (hexc : loopGo g' max_iterations 0 (some s) [] (startLogged init rid s) =
      LoopExit.exc st0 msg) :
    (eng.run_graph gid init sn reg rid).raisedMsg = none
    ∧ (eng.run_graph gid init sn reg rid).stateOf.map (fun st => st.error) =
        some (some msg)
    ∧ (eng.run_graph gid init sn reg rid).stateOf.map (fun st => st.completed) =
        some true
    ∧ (eng.run_graph gid init sn reg rid).stateOf.map
        (fun st => st.execution_log) =
        some (st0.execution_log ++ [⟨"engine", "Error: " ++ msg, Value.vnone⟩]) := by
  have hfinal : run_loop_phase g' (some s) (startLogged init rid s) =
      WorkflowState.log {st0 with error := some msg, completed := true}
        "engine" ("Error: " ++ msg) Value.vnone := by
    unfold run_loop_phase
    rw [hexc]
  have hrun : eng.run_graph gid init sn reg rid =
      RunOutcome.ok
        {eng with
          runs := dictSet (dictSet eng.runs rid (initState init rid)) rid
              (run_loop_phase g' (some s) (startLogged init rid s)),
          graphs := dictSet eng.graphs gid g'}
        (run_loop_phase g' (some s) (startLogged init rid s)) := by
    have hss : strOptTruthy (some s) = true := by simp [strOptTruthy, hs]
    simp only [WorkflowEngine.run_graph, hg, hres]
    rw [hstart, hss]
    simp only [startLogged, Option.getD_some, if_true]
    rfl
  rw [hrun, hfinal]
  exact ⟨rfl, rfl, rfl, rfl⟩

/-- C6 witness: the catch behavior at a concrete run whose only step
callable raises "boom". -/
theorem run_catches_callable_errors_witness :
    (engC6.run_graph "g6" [] none none "r").raisedMsg = none
    ∧ (engC6.run_graph "g6" [] none none "r").stateOf.map (fun st => st.error) =
        some (some "boom")
    ∧ (engC6.run_graph "g6" [] none none "r").stateOf.map
        (fun st => st.completed) = some true
    ∧ (engC6.run_graph "g6" [] none none "r").stateOf.map
        (fun st => st.execution_log) =
        some ((⟨[], some "e",
            [⟨"engine", "Starting workflow from node: e", Value.vnone⟩,
             ⟨"e", "Executing node: e", Value.vnone⟩],
            "r", false, none⟩ : WorkflowState).execution_log ++
          [⟨"engine", "Error: " ++ "boom", Value.vnone⟩]) :=
  run_catches_callable_errors engC6 "g6" [] none none "r" gC6 gC6 "e"
    ⟨[], some "e",
      [⟨"engine", "Starting workflow from node: e", Value.vnone⟩,
       ⟨"e", "Executing node: e", Value.vnone⟩],
      "r", false, none⟩
    "boom" rfl rfl rfl (by decide) rfl

/-- C7 counterexample: the graph gC7 contains a node whose identity is the
empty string, and the routing callable of conditional node "c" returns that
identity — yet the engine does not jump there: the empty string fails the
engine's truthiness test, so the default successor "b" is taken instead. -/
theorem conditional_empty_id_cex :
    dictHas gC7.nodes "" = true
    ∧ cfEmpty stW = PyResult.ok stW (Value.vstr "")
    ∧ gC7.get_next_node "c" stW = some "b"
    ∧ routeAfter gC7 nodeC7 "c" stW = RouteResult.rok stW (some "b") :=
  ⟨rfl, rfl, rfl, rfl⟩

/-- C7 amended: a conditional node's routing callable result is followed
when it is a non-empty node identity present in the graph (regardless of
the default edge); a result that is empty, absent from the graph, or not a
string at all falls back to the default successor. -/
theorem conditional_routing (g : Graph) (node : Node) (cid : String)
    (st st' : WorkflowState) (cf : WorkflowState → PyResult) (v : Value)
    (htype : node.node_type = NodeType.CONDITIONAL)
    (hcf : node.condition_func = some cf)
    (hcall : cf st = PyResult.ok st' v) :
    (∀ s, v = Value.vstr s → s ≠ "" → dictHas g.nodes s = true →
      routeAfter g node cid st = RouteResult.rok st' (some s))
    ∧ ((∀ s, v = Value.vstr s → s = "" ∨ dictHas g.nodes s = false) →
      routeAfter g node cid st = RouteResult.rok st' (g.get_next_node cid st')) := by
  have hroute : routeAfter g node cid st =
      (match condJump g v with
       | some s => RouteResult.rok st' (some s)
       | none => RouteResult.rok st' (g.get_next_node cid st')) := by
    unfold routeAfter
    simp only [htype, hcf, hcall]
  constructor
  · intro s hv hs hmem
    subst hv
    rw [hroute]
    simp only [condJump]
    rw [if_pos ⟨hs, hmem⟩]
  · intro hinv
    rw [hroute]
    cases v with
    | vnone => rfl
    | vbool b => rfl
    | vint n => rfl
    | vstr s =>
        simp only [condJump]
        rcases hinv s rfl with h | h
        · rw [if_neg fun hc => hc.1 h]
        · rw [if_neg fun hc => Bool.false_ne_true (h ▸ hc.2)]

/-- C7 witness: the amended statement at a concrete conditional node whose
routing callable returns the valid identity "b". -/
theorem conditional_routing_witness :
    routeAfter gC7 nodeC7W "c" stW = RouteResult.rok stW (some "b") :=
  (conditional_routing gC7 nodeC7W "c" stW stW cfB (Value.vstr "b")
    rfl rfl rfl).1 "b" rfl (by decide) rfl

/-- In a graph of standard nodes whose step callables never raise and whose
every node has a non-empty default successor inside the graph, the step
loop consumes all its fuel and leaves the loop normally, having run exactly
one iteration per unit of fuel. -/
theorem loopGo_standard_total (g : Graph)
    (hstd : ∀ k n, (k, n) ∈ g.nodes → n.node_type = NodeType.STANDARD)
    (hfn : ∀ k n, (k, n) ∈ g.nodes → ∀ st, ∃ st2 v,
        callFunc n.func st = PyResult.ok st2 v)
    (hedge : ∀ k n, (k, n) ∈ g.nodes → ∃ t, dictGet g.edges k = some t
        ∧ t ≠ "" ∧ dictHas g.nodes t = true) :
    ∀ (fuel it : Nat) (c : String) (vis : List String) (st : WorkflowState),
      c ≠ "" → dictHas g.nodes c = true →
      ∃ st2, loopGo g fuel it (some c) vis st =
        LoopExit.normal st2 (it + fuel) := by
  intro fuel
  induction fuel with
  | zero =>
      intro it c vis st hc hhas
      exact ⟨st, by simp [loopGo]⟩
  | succ fuel ih =>
      intro it c vis st hc hhas
      obtain ⟨node, hnode⟩ := dictHas_get g.nodes c hhas
      have hmem := dictGet_mem g.nodes c node hnode
      have htype := hstd c node hmem
      obtain ⟨st2, v, hcall⟩ := hfn c node hmem (enterNode node c st)
      obtain ⟨t, ht, htne, hthas⟩ := hedge c node hmem
      simp only [loopGo]
      rw [if_neg hc]
      simp only [hnode, hcall, htype, routeAfter, Graph.get_next_node, ht]
      have harith : it + (fuel + 1) = (it + 1) + fuel := by omega
      rw [harith]
      cases hcnd : node.condition_func with
      | none => exact ih (it + 1) t _ _ htne hthas
      | some cf => exact ih (it + 1) t _ _ htne hthas

/-- C5: a run over a graph of standard nodes whose default edges always
continue inside the graph (in particular, a cycle) never loops forever: the
step loop runs exactly max_iterations = 1000 iterations, and the run
returns completed with error "Maximum iterations reached". -/
theorem cyclic_standard_graph_hits_cap
    (eng : WorkflowEngine) (gid : String) (init : List (String × Value))
    (reg : Option ToolRegistry) (rid s : String) (g g' : Graph)
    (hg : dictGet eng.graphs gid = some g)
    (hres : g.resolve_functions reg = (g', none))
    (hs : s ≠ "") (hsin : dictHas g'.nodes s = true)
    (hstd : ∀ k n, (k, n) ∈ g'.nodes → n.node_type = NodeType.STANDARD)
    (hfn : ∀ k n, (k, n) ∈ g'.nodes → ∀ st, ∃ st2 v,
        callFunc n.func st = PyResult.ok st2 v)
    (hedge : ∀ k n, (k, n) ∈ g'.nodes → ∃ t, dictGet g'.edges k = some t
        ∧ t ≠ "" ∧ dictHas g'.nodes t = true) :
    (loopGo g' max_iterations 0 (some s) [] (startLogged init rid s)).isNormal
        = true
    ∧ (loopGo g' max_iterations 0 (some s) [] (startLogged init rid s)).exitIter
        = max_iterations
    ∧ (eng.run_graph gid init (some s) reg rid).raisedMsg = none
    ∧ (eng.run_graph gid init (some s) reg rid).stateOf.map (fun st => st.error)
        = some (some "Maximum iterations reached")
    ∧ (eng.run_graph gid init (some s) reg rid).stateOf.map
        (fun st => st.completed) = some true := by
  obtain ⟨st2, h2⟩ := loopGo_standard_total g' hstd hfn hedge max_iterations 0 s
    [] (startLogged init rid s) hs hsin
  have hfinal : run_loop_phase g' (some s) (startLogged init rid s) =
      {st2 with
        error := some "Maximum iterations reached",
        completed := true} := by
    unfold run_loop_phase
    simp only [h2]
    rw [if_pos (show 0 + max_iterations ≥ max_iterations by omega)]
  have hss : strOptTruthy (some s) = true := by simp [strOptTruthy, hs]
  have hstart : (if strOptTruthy (some s) then some s else g'.get_start_node)
      = some s := by rw [hss]; rfl
  have hrun : eng.run_graph gid init (some s) reg rid =
      RunOutcome.ok
        {eng with
          runs := dictSet (dictSet eng.runs rid (initState init rid)) rid
              (run_loop_phase g' (some s) (startLogged init rid s)),
          graphs := dictSet eng.graphs gid g'}
        (run_loop_phase g' (some s) (startLogged init rid s)) := by
    simp only [WorkflowEngine.run_graph, hg, hres]
    rw [hstart, hss]
    simp only [startLogged, Option.getD_some, if_true]
    rfl
  refine ⟨?_, ?_, ?_, ?_, ?_⟩
  · rw [h2]; rfl
  · rw [h2]
    show 0 + max_iterations = max_iterations
    omega
  · rw [hrun]; rfl
  · rw [hrun]
    simp only [RunOutcome.stateOf, Option.map_some', hfinal]
  · rw [hrun]
    simp only [RunOutcome.stateOf, Option.map_some', hfinal]

/-- C5 witness: a two-node default-edge cycle of standard nodes reaches
exactly the 1000-iteration cap. -/
theorem cyclic_standard_graph_hits_cap_witness :
    (loopGo gC5 max_iterations 0 (some "p") []
        (startLogged [] "r5" "p")).isNormal = true
    ∧ (loopGo gC5 max_iterations 0 (some "p") []
        (startLogged [] "r5" "p")).exitIter = max_iterations
    ∧ (engC5.run_graph "g5" [] (some "p") none "r5").raisedMsg = none
    ∧ (engC5.run_graph "g5" [] (some "p") none "r5").stateOf.map
        (fun st => st.error) = some (some "Maximum iterations reached")
    ∧ (engC5.run_graph "g5" [] (some "p") none "r5").stateOf.map
        (fun st => st.completed) = some true := by
  refine cyclic_standard_graph_hits_cap engC5 "g5" [] none "r5" "p" gC5 gC5
    rfl rfl (by decide) rfl ?_ ?_ ?_
  · intro k n h
    simp [gC5] at h
    rcases h with ⟨rfl, rfl⟩ | ⟨rfl, rfl⟩ <;> rfl
  · intro k n h st
    simp [gC5] at h
    rcases h with ⟨rfl, rfl⟩ | ⟨rfl, rfl⟩ <;> exact ⟨st, Value.vnone, rfl⟩
  · intro k n h
    simp [gC5] at h
    rcases h with ⟨rfl, rfl⟩ | ⟨rfl, rfl⟩
    · exact ⟨"q", rfl, by decide, rfl⟩
    · exact ⟨"p", rfl, by decide, rfl⟩

/-- C3 amended: when the step loop exits normally with the completion flag
set after fewer than the cap's 1000 iterations, the engine mutates the
state no further — the returned state is exactly the loop-exit state. (The
exception carved out by the counterexample: completion on exactly the
1000th iteration, where the iteration-cap check then overwrites the error
field.) -/
theorem no_mutation_after_completion (g : Graph) (cur : Option String)
    (st st' : WorkflowState) (it : Nat)
    (hexit : loopGo g max_iterations 0 cur [] st = LoopExit.normal st' it)
    (hcomp : st'.completed = true) (hit : it < max_iterations) :
    run_loop_phase g cur st = st' := by
  unfold run_loop_phase
  simp only [hexit]
  rw [if_neg (by omega)]

/-- C3 witness: a single-step completing run (start node "b" of gC7, which
has no outgoing edge) completes at iteration 1 with the completion flag
set, and the engine returns that state unchanged. -/
theorem no_mutation_after_completion_witness :
    loopGo gC7 max_iterations 0 (some "b") [] (startLogged [] "w3" "b") =
      LoopExit.normal
        ⟨[], some "b",
          [⟨"engine", "Starting workflow from node: b", Value.vnone⟩,
           ⟨"b", "Executing node: b", Value.vnone⟩,
           ⟨"engine", "Workflow completed", Value.vnone⟩],
          "w3", true, none⟩ 1
    ∧ (1 : Nat) < max_iterations
    ∧ run_loop_phase gC7 (some "b") (startLogged [] "w3" "b") =
        ⟨[], some "b",
          [⟨"engine", "Starting workflow from node: b", Value.vnone⟩,
           ⟨"b", "Executing node: b", Value.vnone⟩,
           ⟨"engine", "Workflow completed", Value.vnone⟩],
          "w3", true, none⟩ :=
  ⟨rfl, by decide,
   no_mutation_after_completion gC7 (some "b") (startLogged [] "w3" "b")
     ⟨[], some "b",
       [⟨"engine", "Starting workflow from node: b", Value.vnone⟩,
        ⟨"b", "Executing node: b", Value.vnone⟩,
        ⟨"engine", "Workflow completed", Value.vnone⟩],
       "w3", true, none⟩ 1 rfl rfl (by decide)⟩

/-- Reading back the "x" counter right after the C3 step callable wrote
it. -/
theorem getX_dictSet (st : WorkflowState) (n : Int) :
    getX {st with data := dictSet st.data "x" (Value.vint n)} = n := by
  simp [getX, dictGet_dictSet_self]

/-- Helper for the C3 counterexample: on gC3, starting an iteration with
counter it, fuel f (with it + f = 1000, f ≥ 1) and the data key "x" equal
to it, the loop finishes normally at iteration exactly 1000, with the
completion flag set by the natural-completion branch and the error field
untouched. -/
theorem c3_loop (f : Nat) :
    ∀ (it : Nat) (vis : List String) (st : WorkflowState),
      1 ≤ f → it + f = 1000 → getX st = (it : Int) →
      ∃ st2, loopGo gC3 f it (some "a") vis st = LoopExit.normal st2 1000
        ∧ st2.completed = true ∧ st2.error = st.error := by
  induction f with
  | zero => intro it vis st h1 _ _; exact absurd h1 (by omega)
  | succ f ih =>
      intro it vis st h1 hsum hx
      have e1 : dictGet gC3.nodes "a" = some nodeA := rfl
      have e2 : ∀ X : WorkflowState, callFunc nodeA.func X =
          PyResult.ok
            {X with data := dictSet X.data "x" (Value.vint (getX X + 1))}
            Value.vnone := fun X => rfl
      have e3 : ∀ Y : WorkflowState, afterResult nodeA Y Value.vnone = Y :=
        fun Y => rfl
      have e4 : nodeA.node_type = NodeType.CONDITIONAL := rfl
      have e5 : nodeA.loop_condition_func = none := rfl
      have e6 : nodeA.condition_func = some condTo1000 := rfl
      have e7 : ∀ Y : WorkflowState, condTo1000 Y =
          PyResult.ok Y
            (if getX Y < 1000 then Value.vstr "a" else Value.vnone) :=
        fun Y => rfl
      have e8 : condJump gC3 (Value.vstr "a") = some "a" := rfl
      have e9 : condJump gC3 Value.vnone = none := rfl
      have hx1 : getX (enterNode nodeA "a" st) = (it : Int) := hx
      have hx2 : getX {enterNode nodeA "a" st with
          data := dictSet (enterNode nodeA "a" st).data "x"
            (Value.vint (getX (enterNode nodeA "a" st) + 1))} =
          (it : Int) + 1 := by
        rw [getX_dictSet, hx1]
      simp only [loopGo]
      rw [if_neg (show ¬ ("a" : String) = "" by decide)]
      simp only [e1, e2, e3, e4, e5, routeAfter, e6, e7]
      rw [hx2]
      rcases Nat.eq_zero_or_pos f with hf | hf
      · subst hf
        have hit : it = 999 := by omega
        subst hit
        rw [if_neg (by decide)]
        simp only [e9, Graph.get_next_node]
        exact ⟨_, rfl, rfl, rfl⟩
      · rw [if_pos (show ((it : Int) + 1 < 1000) by omega)]
        simp only [e8]
        exact ih (it + 1) _ _ hf (by omega) (by rw [hx2]; push_cast; ring)

/-- C3 counterexample: on gC3 the run completes naturally on exactly the
1000th iteration — the loop exits normally with the completion flag true
and no error — and the engine then mutates that already-completed state,
overwriting its error field with "Maximum iterations reached". -/
theorem completion_at_cap_mutates_error_cex :
    (loopGo gC3 max_iterations 0 (some "a") [] stC3).isNormal = true
    ∧ (loopGo gC3 max_iterations 0 (some "a") [] stC3).exitIter = 1000
    ∧ (loopGo gC3 max_iterations 0 (some "a") [] stC3).exitState.completed
        = true
    ∧ (loopGo gC3 max_iterations 0 (some "a") [] stC3).exitState.error = none
    ∧ (run_loop_phase gC3 (some "a") stC3).error =
        some "Maximum iterations reached"
    ∧ (run_loop_phase gC3 (some "a") stC3).completed = true := by
  obtain ⟨st2, h2, hc2, he2⟩ :=
    c3_loop max_iterations 0 [] stC3 (by decide) rfl rfl
  refine ⟨?_, ?_, ?_, ?_, ?_, ?_⟩
  · rw [h2]; rfl
  · rw [h2]; rfl
  · rw [h2]; exact hc2
  · rw [h2]; exact he2
  · unfold run_loop_phase
    simp only [h2]
    rw [if_pos (show (1000 : Nat) ≥ max_iterations from le_refl 1000)]
  · unfold run_loop_phase
    simp only [h2]
    rw [if_pos (show (1000 : Nat) ≥ max_iterations from le_refl 1000)]
